import Mathlib

/-! # monitor-agent: the in-memory document mutation engine and the reload protocol

A shallow embedding of `main.go`.  Go values of static type `interface{}` are
the inductive type `Value`; Go maps are association lists (index, assignment
and `delete` are the three map operations the program uses); a slice is the
list of its visible elements; the outcome of the outbound reload request is an
input of the reload functions; what a handler does to the outside world (log
lines, file writes, the outbound POST, the JSON response) is the list of
`Effect`s it returns, in program order.  A run-time panic is `none`.
-/

namespace MonitorAgent

/-! ## Values -/

/-- Keys of a `map[interface{}]interface{}` as the YAML decoder builds them. -/
inductive Key where
  | str (s : String)
  | int (n : Int)
  | bool (b : Bool)
  deriving DecidableEq, Repr

/-- Go values held in an `interface{}`: the shapes the decoder and the two
constructors `createProber` and `createScrapeConfig` produce. -/
inductive Value where
  /-- The nil interface, also the result of indexing a map at an absent key. -/
  | null
  | str (s : String)
  | int (n : Int)
  | bool (b : Bool)
  /-- Type `[]string`. -/
  | strs (l : List String)
  /-- Type `map[string]string`. -/
  | strMap (m : List (String × String))
  /-- Type `[]interface{}`. -/
  | seq (l : List Value)
  /-- Fixed-size arrays: `[1]map[string]interface{}` and `[3]interface{}`. -/
  | arr (l : List Value)
  /-- Type `map[string]interface{}`. -/
  | smap (m : List (String × Value))
  /-- Type `map[interface{}]interface{}`. -/
  | imap (m : List (Key × Value))

instance : Inhabited Value := ⟨Value.null⟩

/-- Go `v == s` for an interface value `v` and a string `s`: true exactly when
the dynamic type of `v` is `string` and the strings are equal. -/
def Value.eqString : Value → String → Bool
  | Value.str t, s => decide (t = s)
  | _, _ => false

/-! ## Go maps as association lists -/

section Maps
variable {κ : Type} [DecidableEq κ] {α : Type}

/-- The comma-ok form `v, ok := m[k]`. -/
def mapLookup : List (κ × α) → κ → Option α
  | [], _ => none
  | (k', v) :: rest, k => if k' = k then some v else mapLookup rest k

/-- Map assignment `m[k] = v`: overwrite the entry of `k`, or add one. -/
def mapAssign : List (κ × α) → κ → α → List (κ × α)
  | [], k, v => [(k, v)]
  | (k', v') :: rest, k, v =>
    if k' = k then (k, v) :: rest else (k', v') :: mapAssign rest k v

/-- The builtin `delete(m, k)`: a no-op when `k` is absent. -/
def mapDelete : List (κ × α) → κ → List (κ × α)
  | [], _ => []
  | (k', v') :: rest, k =>
    if k' = k then mapDelete rest k else (k', v') :: mapDelete rest k

end Maps

/-- Map index `m[k]` at value type `interface{}`: nil when `k` is absent. -/
def mapIndex {κ : Type} [DecidableEq κ] (m : List (κ × Value)) (k : κ) : Value :=
  (mapLookup m k).getD Value.null

/-! ## Configuration and requests -/

structure prometheusAgent where
  ConfigPath : String
  ReloadEndpoint : String

structure blackboxAgent where
  ConfigPath : String
  ReloadEndpoint : String

structure config where
  PrometheusAgent : prometheusAgent
  BlackboxAgent : blackboxAgent

structure scrapeJobRequest where
  UniqueName : String
  TargetUrls : List String
  Prober : String
  Env : String
  SystemAlertID : String

structure proberRequestBasicAuth where
  Username : String
  Password : String

structure proberRequest where
  UniqueName : String
  Method : String
  BasicAuth : proberRequestBasicAuth
  Body : String
  Headers : List (String × String)

/-- A parsed configuration document, `map[interface{}]interface{}`. -/
abbrev Document := List (Key × Value)

/-! ## Probe modules -/

/-- Function `createProber`. -/
def createProber (proberRequest : proberRequest) : Value :=
  let proberHTTPConfig : List (String × Value) := [("method", Value.str proberRequest.Method)]
  let proberHTTPConfig :=
    if proberRequest.Headers.length ≠ 0 then
      mapAssign proberHTTPConfig "headers" (Value.strMap proberRequest.Headers)
    else proberHTTPConfig
  let proberHTTPConfig :=
    if proberRequest.Body ≠ "" then
      mapAssign proberHTTPConfig "body" (Value.str proberRequest.Body)
    else proberHTTPConfig
  let proberHTTPConfig :=
    if proberRequest.BasicAuth.Username ≠ "" ∧ proberRequest.BasicAuth.Password ≠ "" then
      let proberHTTPBasicAuthConfig : List (String × Value) :=
        [("username", Value.str proberRequest.BasicAuth.Username),
         ("password", Value.str proberRequest.BasicAuth.Password)]
      mapAssign proberHTTPConfig "basic_auth" (Value.smap proberHTTPBasicAuthConfig)
    else proberHTTPConfig
  let proberHTTPTLSConfig : List (String × Value) := [("insecure_skip_verify", Value.bool true)]
  let proberHTTPConfig := mapAssign proberHTTPConfig "tls_config" (Value.smap proberHTTPTLSConfig)
  Value.smap [("prober", Value.str "http"), ("http", Value.smap proberHTTPConfig)]

/-! ## Scrape jobs -/

/-- Function `createScrapeConfig`. -/
def createScrapeConfig (req : scrapeJobRequest) : Value :=
  let params : List (String × Value) := [("module", Value.strs [req.Prober])]
  let scrapeConfig : List (String × Value) :=
    [("job_name", Value.str req.UniqueName),
     ("metrics_path", Value.str "/probe"),
     ("params", Value.smap params)]
  let labels : List (String × Value) :=
    [("env", Value.str req.Env), ("system_alert_id", Value.str req.SystemAlertID)]
  let staticConfig : List (String × Value) :=
    [("targets", Value.strs req.TargetUrls), ("labels", Value.smap labels)]
  let staticConfig := mapAssign staticConfig "targets" (Value.strs req.TargetUrls)
  let staticConfigs := Value.arr [Value.smap staticConfig]
  let scrapeConfig := mapAssign scrapeConfig "static_configs" staticConfigs
  let relabelConfigs : List Value :=
    [Value.smap [("source_labels", Value.strs ["__address__"]),
                 ("target_label", Value.str "__param_target")],
     Value.smap [("source_labels", Value.strs ["__param_target"]),
                 ("target_label", Value.str "instance")],
     Value.smap [("target_label", Value.str "__address__"),
                 ("replacement", Value.str "127.0.0.1:9115")]]
  let scrapeConfig := mapAssign scrapeConfig "relabel_configs" (Value.arr relabelConfigs)
  Value.smap scrapeConfig

/-- The test made on one element by the type switch of `findScrapeConfigIndex`:
for either map type, `scrapeConfig["job_name"] == scrapeJobUniqueName`; any
other dynamic type falls into the empty `default` case. -/
def jobNameMatches (scrapeJobUniqueName : String) (scrapeConfig : Value) : Bool :=
  match scrapeConfig with
  | Value.imap m => (mapIndex m (Key.str "job_name")).eqString scrapeJobUniqueName
  | Value.smap m => (mapIndex m "job_name").eqString scrapeJobUniqueName
  | _ => false

/-- The `range` loop of `findScrapeConfigIndex` from position `i` on, with the
current value of `scrapeConfigIndex`.  The `break` leaves the `switch`, not the
loop, so every later match overwrites the index. -/
def findScrapeConfigIndexLoop (scrapeJobUniqueName : String) :
    List Value → Int → Int → Int
  | [], _, scrapeConfigIndex => scrapeConfigIndex
  | scrapeConfig :: rest, i, scrapeConfigIndex =>
    findScrapeConfigIndexLoop scrapeJobUniqueName rest (i + 1)
      (if jobNameMatches scrapeJobUniqueName scrapeConfig then i else scrapeConfigIndex)

/-- Function `findScrapeConfigIndex`. -/
def findScrapeConfigIndex (scrapeJobUniqueName : String) (scrapeConfigs : List Value) : Int :=
  findScrapeConfigIndexLoop scrapeJobUniqueName scrapeConfigs 0 (-1)

/-- The slice expression `s[low:high]` on the visible elements of `s`; it
panics outside `0 ≤ low ≤ high ≤ len(s)`.  Go lets `high` run up to the
capacity; `deleteScrapeConfig` asks for a `high` above the length only in
`scrapeConfigs[:index]` of its last branch, where `scrapeConfigs[index+1:]`
panics as well, so the function panics on the same arguments either way. -/
def sliceRange (s : List Value) (low high : Int) : Option (List Value) :=
  if 0 ≤ low ∧ low ≤ high ∧ high ≤ (s.length : Int) then
    some ((s.take high.toNat).drop low.toNat)
  else none

/-- Function `deleteScrapeConfig`; the result is the document after the
assignment to its `scrape_configs` key. -/
def deleteScrapeConfig (scrapeConfigs : List Value) (prometheusConfig : Document)
    (index : Int) : Option Document :=
  if (scrapeConfigs.length : Int) = index + 1 then do
    let s ← sliceRange scrapeConfigs 0 index
    pure (mapAssign prometheusConfig (Key.str "scrape_configs") (Value.seq s))
  else if index = 0 then do
    let s ← sliceRange scrapeConfigs 1 scrapeConfigs.length
    pure (mapAssign prometheusConfig (Key.str "scrape_configs") (Value.seq s))
  else do
    let front ← sliceRange scrapeConfigs 0 index
    let back ← sliceRange scrapeConfigs (index + 1) scrapeConfigs.length
    pure (mapAssign prometheusConfig (Key.str "scrape_configs") (Value.seq (front ++ back)))

/-- The indexed assignment `s[i] = v`; it panics outside `0 ≤ i < len(s)`. -/
def sliceAssign (s : List Value) (i : Int) (v : Value) : Option (List Value) :=
  if 0 ≤ i ∧ i < (s.length : Int) then some (s.set i.toNat v) else none

/-- The type assertion `prometheusConfig["scrape_configs"].([]interface{})`; it
panics when the key is absent or holds a value of another type. -/
def scrapeConfigsOf (prometheusConfig : Document) : Option (List Value) :=
  match mapIndex prometheusConfig (Key.str "scrape_configs") with
  | Value.seq l => some l
  | _ => none

/-! ## Effects -/

inductive Level where
  | info
  | error
  deriving DecidableEq, Repr

/-- What the program does to the outside world. -/
inductive Effect where
  /-- A logrus line, `log.Info` or `log.Error`. -/
  | log (level : Level) (msg : String)
  /-- The Persistence Writer: the document encoded into the file at `path`
  (`saveBlackboxConfig`, `savePrometheusConfig`). -/
  | save (path : String) (doc : Document)
  /-- The outbound `http.PostForm(endpoint, url.Values{})`. -/
  | postForm (endpoint : String)
  /-- The response `c.JSON(status, gin.H{"code": code, "message": message})`. -/
  | json (status : Int) (code : Int) (message : String)

/-- What the downstream agent's endpoint does with the reload request. -/
inductive ReloadOutcome where
  /-- Call `http.PostForm` returned the error `err`. -/
  | transportError (err : String)
  /-- Call `http.PostForm` returned a response with this status code, and
  `ioutil.ReadAll` on its body gives `body` (an error text or the content). -/
  | response (StatusCode : Int) (body : Except String String)

/-- Function `strconv.Itoa`. -/
def Itoa (n : Int) : String := toString n

/-- Function `saveBlackboxConfig`; the error of `os.OpenFile` is dropped. -/
def saveBlackboxConfig (blackboxAgent : blackboxAgent) (blackboxConfig : Document) :
    List Effect :=
  [Effect.save blackboxAgent.ConfigPath blackboxConfig]

/-- Function `savePrometheusConfig`; the error of `os.OpenFile` is dropped. -/
def savePrometheusConfig (prometheusAgent : prometheusAgent) (prometheusConfig : Document) :
    List Effect :=
  [Effect.save prometheusAgent.ConfigPath prometheusConfig]

/-- Function `reloadBlackboxConfig`: its effects, and the returned `error`
(`none` is nil, `some msg` is `errors.New(msg)`). -/
def reloadBlackboxConfig (config : config) (outcome : ReloadOutcome) :
    List Effect × Option String :=
  match outcome with
  | ReloadOutcome.transportError err =>
    ([Effect.postForm config.BlackboxAgent.ReloadEndpoint,
      Effect.json 500 (-999) "System error"],
     some ("Failed to trigger reloading of blackbox config " ++ err))
  | ReloadOutcome.response StatusCode body =>
    if StatusCode = 200 then
      ([Effect.postForm config.BlackboxAgent.ReloadEndpoint,
        Effect.log Level.info ("reloadRes http code" ++ Itoa StatusCode),
        Effect.log Level.info "Successful to trigger reloading of blackbox config",
        Effect.json 200 0 "Success"],
       none)
    else
      match body with
      | Except.error err =>
        ([Effect.postForm config.BlackboxAgent.ReloadEndpoint,
          Effect.log Level.info ("reloadRes http code" ++ Itoa StatusCode),
          Effect.json 500 (-999) "System error"],
         some ("Failed to read reloadResBody " ++ err))
      | Except.ok reloadResBody =>
        ([Effect.postForm config.BlackboxAgent.ReloadEndpoint,
          Effect.log Level.info ("reloadRes http code" ++ Itoa StatusCode),
          Effect.json 500 (-999) "System error"],
         some ("Failed to trigger reloading of blackbox config " ++ reloadResBody))

/-- Function `reloadPrometheusConfig`: its effects, and the returned `error`
(`none` is nil, `some msg` is `errors.New(msg)`). -/
def reloadPrometheusConfig (config : config) (outcome : ReloadOutcome) :
    List Effect × Option String :=
  match outcome with
  | ReloadOutcome.transportError err =>
    ([Effect.postForm config.PrometheusAgent.ReloadEndpoint,
      Effect.json 500 (-999) "System error"],
     some ("Failed to trigger reloading of prometheus config " ++ err))
  | ReloadOutcome.response StatusCode body =>
    if StatusCode = 200 then
      ([Effect.postForm config.PrometheusAgent.ReloadEndpoint,
        Effect.log Level.info ("reloadRes http code" ++ Itoa StatusCode),
        Effect.json 200 0 "Success"],
       some "Successful to trigger reloading of prometheus config")
    else
      match body with
      | Except.error err =>
        ([Effect.postForm config.PrometheusAgent.ReloadEndpoint,
          Effect.log Level.info ("reloadRes http code" ++ Itoa StatusCode),
          Effect.log Level.error ("Failed to read reloadResBody " ++ err),
          Effect.json 500 (-999) "System error"],
         none)
      | Except.ok reloadResBody =>
        ([Effect.postForm config.PrometheusAgent.ReloadEndpoint,
          Effect.log Level.info ("reloadRes http code" ++ Itoa StatusCode),
          Effect.json 500 (-999) "System error"],
         some ("Failed to trigger reloading of prometheus config " ++ reloadResBody))

/-! ## Request handlers -/

/-- The probe document in memory: `blackboxConfig` as loaded, and the current
content of the map `blackboxConfigModules`, which is the very map stored under
`blackboxConfig["modules"]`. -/
structure BlackboxState where
  blackboxConfig : Document
  blackboxConfigModules : List (String × Value)

/-- The document `blackboxConfig` as the encoder sees it: its `modules` key
holds the shared map in its current state. -/
def BlackboxState.document (st : BlackboxState) : Document :=
  mapAssign st.blackboxConfig (Key.str "modules") (Value.smap st.blackboxConfigModules)

/-- The tail of both probe handlers: the log line chosen by the error that
`reloadBlackboxConfig` returned. -/
def logBlackboxReload (err : Option String) : List Effect :=
  match err with
  | some msg => [Effect.log Level.error ("Cannot reload blackbox config " ++ msg)]
  | none => [Effect.log Level.info "Successful to reload blackbox config"]

/-- The tail of both scrape-job handlers: the log line chosen by the error
that `reloadPrometheusConfig` returned. -/
def logPrometheusReload (err : Option String) : List Effect :=
  match err with
  | some _ => [Effect.log Level.error "Cannot reload prometheus config"]
  | none => [Effect.log Level.info "Successful to reload prometheus config"]

/-- Handler of `PUT /prober`; `body` is the result of `c.BindJSON`. -/
def putProber (config : config) (st : BlackboxState) (body : Except String proberRequest)
    (outcome : ReloadOutcome) : BlackboxState × List Effect :=
  match body with
  | Except.error err =>
    (st, [Effect.log Level.info ("Cannot parse json: " ++ err),
          Effect.json 400 (-998) "Invalid param"])
  | Except.ok proberRequest =>
    let proberConfig := createProber proberRequest
    let st' : BlackboxState :=
      { st with blackboxConfigModules :=
          mapAssign st.blackboxConfigModules proberRequest.UniqueName proberConfig }
    let reload := reloadBlackboxConfig config outcome
    (st', [Effect.log Level.info ("Upsert prober " ++ proberRequest.UniqueName)]
          ++ saveBlackboxConfig config.BlackboxAgent st'.document
          ++ reload.1 ++ logBlackboxReload reload.2)

/-- Handler of `DELETE /prober`; `uniqueName` is the query parameter. -/
def deleteProber (config : config) (st : BlackboxState) (uniqueName : String)
    (outcome : ReloadOutcome) : BlackboxState × List Effect :=
  let st' : BlackboxState :=
    { st with blackboxConfigModules := mapDelete st.blackboxConfigModules uniqueName }
  let reload := reloadBlackboxConfig config outcome
  (st', [Effect.log Level.info ("Delete prober config " ++ uniqueName)]
        ++ saveBlackboxConfig config.BlackboxAgent st'.document
        ++ reload.1 ++ logBlackboxReload reload.2)

/-- Handler of `PUT /scrapeJob`; `body` is the result of `c.BindJSON`.  In the
replace branch the assignment goes through the slice that the document holds,
so the document sees it without being assigned to. -/
def putScrapeJob (config : config) (prometheusConfig : Document)
    (body : Except String scrapeJobRequest) (outcome : ReloadOutcome) :
    Option (Document × List Effect) :=
  match body with
  | Except.error err =>
    some (prometheusConfig, [Effect.log Level.info ("Cannot parse json: " ++ err),
                             Effect.json 400 (-998) "Invalid param"])
  | Except.ok scrapeJobRequest => do
    let scrapeConfigs ← scrapeConfigsOf prometheusConfig
    let scrapeConfigIndex := findScrapeConfigIndex scrapeJobRequest.UniqueName scrapeConfigs
    let scrapeConfigs ←
      if scrapeConfigIndex ≠ -1 then
        sliceAssign scrapeConfigs scrapeConfigIndex (createScrapeConfig scrapeJobRequest)
      else
        some (scrapeConfigs ++ [createScrapeConfig scrapeJobRequest])
    let prometheusConfig :=
      mapAssign prometheusConfig (Key.str "scrape_configs") (Value.seq scrapeConfigs)
    let reload := reloadPrometheusConfig config outcome
    pure (prometheusConfig,
      [Effect.log Level.info ("Upsert scrape config " ++ scrapeJobRequest.UniqueName),
       Effect.log Level.info ("scrapeConfigIndex " ++ Itoa scrapeConfigIndex)]
      ++ savePrometheusConfig config.PrometheusAgent prometheusConfig
      ++ reload.1 ++ logPrometheusReload reload.2)

/-- Handler of `DELETE /scrapeJob`; `uniqueName` is the query parameter. -/
def deleteScrapeJob (config : config) (prometheusConfig : Document) (uniqueName : String)
    (outcome : ReloadOutcome) : Option (Document × List Effect) := do
  let scrapeConfigs ← scrapeConfigsOf prometheusConfig
  let scrapeConfigIndex := findScrapeConfigIndex uniqueName scrapeConfigs
  if scrapeConfigIndex = -1 then
    pure (prometheusConfig,
      [Effect.log Level.info ("Delete scrape config " ++ uniqueName),
       Effect.log Level.info ("scrapeConfigIndex " ++ Itoa scrapeConfigIndex),
       Effect.log Level.info ("No such scrape config " ++ uniqueName),
       Effect.json 200 0 "Success"])
  else do
    let prometheusConfig ← deleteScrapeConfig scrapeConfigs prometheusConfig scrapeConfigIndex
    let reload := reloadPrometheusConfig config outcome
    pure (prometheusConfig,
      [Effect.log Level.info ("Delete scrape config " ++ uniqueName),
       Effect.log Level.info ("scrapeConfigIndex " ++ Itoa scrapeConfigIndex)]
      ++ savePrometheusConfig config.PrometheusAgent prometheusConfig
      ++ reload.1 ++ logPrometheusReload reload.2)

/-! ## Observations on effect lists -/

/-- The responses written, in order, as `(status, code, message)`. -/
def responses : List Effect → List (Int × Int × String)
  | [] => []
  | Effect.json status code message :: rest => (status, code, message) :: responses rest
  | _ :: rest => responses rest

/-- How many times the Persistence Writer ran. -/
def saveCount : List Effect → Nat
  | [] => 0
  | Effect.save _ _ :: rest => saveCount rest + 1
  | _ :: rest => saveCount rest

/-- How many times the Reload Notifier sent its request. -/
def reloadCount : List Effect → Nat
  | [] => 0
  | Effect.postForm _ :: rest => reloadCount rest + 1
  | _ :: rest => reloadCount rest

/-- The texts logged at error level, in order. -/
def errorLogs : List Effect → List String
  | [] => []
  | Effect.log Level.error msg :: rest => msg :: errorLogs rest
  | _ :: rest => errorLogs rest

/-- The reload request reached the endpoint and its response has status 200. -/
def ReloadOutcome.succeeded : ReloadOutcome → Bool
  | ReloadOutcome.transportError _ => false
  | ReloadOutcome.response StatusCode _ => decide (StatusCode = 200)

/-- The job name of a list entry as the scan can see it: the string under
`job_name` of an entry of either map type. -/
def jobNameOf : Value → Option String
  | Value.imap m =>
    match mapIndex m (Key.str "job_name") with
    | Value.str s => some s
    | _ => none
  | Value.smap m =>
    match mapIndex m "job_name" with
    | Value.str s => some s
    | _ => none
  | _ => none

/-- No two entries of the list have the same job name: the job names of the
entries that have one, taken in list order, hold no string twice. -/
def UniqueJobNames (scrapeConfigs : List Value) : Prop :=
  (scrapeConfigs.filterMap jobNameOf).Nodup

instance (scrapeConfigs : List Value) : Decidable (UniqueJobNames scrapeConfigs) := by
  unfold UniqueJobNames
  infer_instance

/-! ## Lemmas on maps -/

section MapLemmas
variable {κ : Type} [DecidableEq κ] {α : Type}

theorem mapLookup_mapAssign_same (m : List (κ × α)) (k : κ) (v : α) :
    mapLookup (mapAssign m k v) k = some v := by
  induction m with
  | nil => simp [mapAssign, mapLookup]
  | cons p rest ih =>
    obtain ⟨k', v'⟩ := p
    by_cases h : k' = k
    · simp [mapAssign, mapLookup, h]
    · simp [mapAssign, mapLookup, h, ih]

theorem mapLookup_mapAssign_other (m : List (κ × α)) (k k' : κ) (v : α) (h : k' ≠ k) :
    mapLookup (mapAssign m k v) k' = mapLookup m k' := by
  induction m with
  | nil =>
    have h' : ¬ k = k' := fun e => h e.symm
    simp [mapAssign, mapLookup, h']
  | cons p rest ih =>
    obtain ⟨k₀, v₀⟩ := p
    by_cases h₀ : k₀ = k
    · have h' : ¬ k = k' := fun e => h e.symm
      have h₂ : ¬ k₀ = k' := fun e => h (e.symm.trans h₀)
      simp [mapAssign, mapLookup, h₀, h', h₂]
    · by_cases h₁ : k₀ = k'
      · subst h₁
        simp [mapAssign, mapLookup, h₀]
      · simp [mapAssign, mapLookup, h₀, h₁, ih]

theorem mapAssign_mapAssign_same (m : List (κ × α)) (k : κ) (v w : α) :
    mapAssign (mapAssign m k v) k w = mapAssign m k w := by
  induction m with
  | nil => simp [mapAssign]
  | cons p rest ih =>
    obtain ⟨k', v'⟩ := p
    by_cases h : k' = k
    · simp [mapAssign, h]
    · simp [mapAssign, h, ih]

theorem mapAssign_of_mapLookup (m : List (κ × α)) (k : κ) (v : α)
    (h : mapLookup m k = some v) : mapAssign m k v = m := by
  induction m with
  | nil => simp [mapLookup] at h
  | cons p rest ih =>
    obtain ⟨k', v'⟩ := p
    by_cases hk : k' = k
    · simp [mapLookup, hk] at h
      simp [mapAssign, hk, h]
    · simp [mapLookup, hk] at h
      simp [mapAssign, hk, ih h]

theorem mapDelete_of_mapLookup_none (m : List (κ × α)) (k : κ)
    (h : mapLookup m k = none) : mapDelete m k = m := by
  induction m with
  | nil => simp [mapDelete]
  | cons p rest ih =>
    obtain ⟨k', v'⟩ := p
    by_cases hk : k' = k
    · simp [mapLookup, hk] at h
    · simp [mapLookup, hk] at h
      simp [mapDelete, hk, ih h]

end MapLemmas

theorem scrapeConfigsOf_mapAssign (doc : Document) (l : List Value) :
    scrapeConfigsOf (mapAssign doc (Key.str "scrape_configs") (Value.seq l)) = some l := by
  simp [scrapeConfigsOf, mapIndex, mapLookup_mapAssign_same]

theorem mapLookup_of_scrapeConfigsOf (doc : Document) (l : List Value)
    (h : scrapeConfigsOf doc = some l) :
    mapLookup doc (Key.str "scrape_configs") = some (Value.seq l) := by
  unfold scrapeConfigsOf mapIndex at h
  cases hl : mapLookup doc (Key.str "scrape_configs") with
  | none => simp [hl] at h
  | some v =>
    rw [hl] at h
    cases v <;> simp at h
    rw [h]

/-! ## Lemmas on the scan -/

theorem findLoop_no_match (name : String) (l : List Value) (i acc : Int)
    (h : ∀ v ∈ l, jobNameMatches name v = false) :
    findScrapeConfigIndexLoop name l i acc = acc := by
  induction l generalizing i acc with
  | nil => rfl
  | cons x xs ih =>
    have hx : jobNameMatches name x = false := h x (List.mem_cons_self _ _)
    have hxs : ∀ v ∈ xs, jobNameMatches name v = false :=
      fun v hv => h v (List.mem_cons_of_mem _ hv)
    simp [findScrapeConfigIndexLoop, hx, ih _ _ hxs]

theorem findLoop_append (name : String) (l₁ l₂ : List Value) (i acc : Int) :
    findScrapeConfigIndexLoop name (l₁ ++ l₂) i acc =
      findScrapeConfigIndexLoop name l₂ (i + l₁.length)
        (findScrapeConfigIndexLoop name l₁ i acc) := by
  induction l₁ generalizing i acc with
  | nil => simp [findScrapeConfigIndexLoop]
  | cons x xs ih =>
    have e : i + 1 + (xs.length : Int) = i + ((xs.length + 1 : Nat) : Int) := by
      push_cast
      ring
    rw [List.cons_append, findScrapeConfigIndexLoop, ih, findScrapeConfigIndexLoop,
      List.length_cons, e]

/-- The scan returns the position of the last matching entry. -/
theorem find_last_match (name : String) (l₁ l₂ : List Value) (v : Value)
    (hv : jobNameMatches name v = true) (h₂ : ∀ w ∈ l₂, jobNameMatches name w = false) :
    findScrapeConfigIndex name (l₁ ++ v :: l₂) = (l₁.length : Int) := by
  unfold findScrapeConfigIndex
  rw [findLoop_append]
  simp [findScrapeConfigIndexLoop, hv, findLoop_no_match name l₂ _ _ h₂]

theorem find_no_match (name : String) (l : List Value)
    (h : ∀ v ∈ l, jobNameMatches name v = false) :
    findScrapeConfigIndex name l = -1 :=
  findLoop_no_match name l 0 (-1) h

/-- A list either has no matching entry or splits at its last matching entry. -/
theorem split_at_last_match (name : String) (l : List Value) :
    (∀ v ∈ l, jobNameMatches name v = false) ∨
    ∃ l₁ v l₂, l = l₁ ++ v :: l₂ ∧ jobNameMatches name v = true ∧
      ∀ w ∈ l₂, jobNameMatches name w = false := by
  induction l with
  | nil => left; simp
  | cons x xs ih =>
    rcases ih with hno | ⟨l₁, v, l₂, hl, hv, h₂⟩
    · cases hx : jobNameMatches name x with
      | false =>
        left
        intro w hw
        rcases List.mem_cons.mp hw with rfl | hw
        · exact hx
        · exact hno w hw
      | true => exact Or.inr ⟨[], x, xs, rfl, hx, hno⟩
    · exact Or.inr ⟨x :: l₁, v, l₂, by simp [hl], hv, h₂⟩

theorem jobNameMatches_iff (name : String) (v : Value) :
    jobNameMatches name v = true ↔ jobNameOf v = some name := by
  cases v with
  | imap m =>
    simp only [jobNameMatches, jobNameOf]
    cases mapIndex m (Key.str "job_name") <;> simp [Value.eqString]
  | smap m =>
    simp only [jobNameMatches, jobNameOf]
    cases mapIndex m "job_name" <;> simp [Value.eqString]
  | _ => simp [jobNameMatches, jobNameOf]

theorem jobNameOf_createScrapeConfig (req : scrapeJobRequest) :
    jobNameOf (createScrapeConfig req) = some req.UniqueName := by
  simp [createScrapeConfig, jobNameOf, mapIndex, mapAssign, mapLookup]

theorem jobNameMatches_createScrapeConfig (req : scrapeJobRequest) :
    jobNameMatches req.UniqueName (createScrapeConfig req) = true :=
  (jobNameMatches_iff _ _).mpr (jobNameOf_createScrapeConfig req)

/-! ## Lemmas on slices -/

theorem split_at_index (l : List Value) (i : Nat) (v : Value) (h : l[i]? = some v) :
    l = l.take i ++ v :: l.drop (i + 1) := by
  induction l generalizing i with
  | nil => simp at h
  | cons x xs ih =>
    cases i with
    | zero =>
      simp at h
      simp [h]
    | succ n =>
      simp at h
      simpa using ih n h

theorem set_at_split (l₁ l₂ : List Value) (v e : Value) :
    (l₁ ++ v :: l₂).set l₁.length e = l₁ ++ e :: l₂ := by
  induction l₁ with
  | nil => simp
  | cons x xs ih => simp [ih]

theorem sliceAssign_at_split (l₁ l₂ : List Value) (v e : Value) :
    sliceAssign (l₁ ++ v :: l₂) (l₁.length : Int) e = some (l₁ ++ e :: l₂) := by
  have h : (0 : Int) ≤ l₁.length ∧ (l₁.length : Int) < ((l₁ ++ v :: l₂).length : Int) := by
    constructor
    · exact Int.ofNat_nonneg _
    · simp only [List.length_append, List.length_cons]
      push_cast
      omega
  unfold sliceAssign
  rw [if_pos h]
  simp [set_at_split]

theorem sliceRange_of_le (s : List Value) (low high : Nat) (h₁ : low ≤ high)
    (h₂ : high ≤ s.length) :
    sliceRange s (low : Int) (high : Int) = some ((s.take high).drop low) := by
  have h : (0 : Int) ≤ low ∧ (low : Int) ≤ high ∧ (high : Int) ≤ (s.length : Int) :=
    ⟨Int.ofNat_nonneg _, by exact_mod_cast h₁, by exact_mod_cast h₂⟩
  unfold sliceRange
  rw [if_pos h]
  simp

/-- All three branches of `deleteScrapeConfig` store the list without its
entry at `index`. -/
theorem deleteScrapeConfig_eq (l : List Value) (doc : Document) (i : Nat)
    (hi : i < l.length) :
    deleteScrapeConfig l doc (i : Int) =
      some (mapAssign doc (Key.str "scrape_configs")
        (Value.seq (l.take i ++ l.drop (i + 1)))) := by
  unfold deleteScrapeConfig
  by_cases hlast : (l.length : Int) = (i : Int) + 1
  · have hlen : l.length = i + 1 := by exact_mod_cast hlast
    rw [if_pos hlast]
    have h0 := sliceRange_of_le l 0 i (Nat.zero_le _) (Nat.le_of_lt hi)
    simp only [Nat.cast_zero] at h0
    rw [h0]
    have hd : l.drop (i + 1) = [] := by
      apply List.drop_eq_nil_of_le
      omega
    simp [hd]
  · rw [if_neg hlast]
    by_cases hzero : (i : Int) = 0
    · have hz : i = 0 := by exact_mod_cast hzero
      subst hz
      rw [if_pos hzero]
      have h1 := sliceRange_of_le l 1 l.length (by omega) (Nat.le_refl _)
      simp only [Nat.cast_one] at h1
      rw [h1]
      simp
    · rw [if_neg hzero]
      have h0 := sliceRange_of_le l 0 i (Nat.zero_le _) (Nat.le_of_lt hi)
      simp only [Nat.cast_zero] at h0
      have h1 := sliceRange_of_le l (i + 1) l.length (by omega) (Nat.le_refl _)
      simp only [Nat.cast_add, Nat.cast_one] at h1
      rw [h0, h1]
      simp

theorem take_drop_at_split (l₁ l₂ : List Value) (v : Value) :
    (l₁ ++ v :: l₂).take l₁.length ++ (l₁ ++ v :: l₂).drop (l₁.length + 1) = l₁ ++ l₂ := by
  induction l₁ with
  | nil => simp
  | cons x xs ih => simp [ih]

/-! ## Lemmas on the scrape-job handlers -/

/-- The document after `PUT /scrapeJob` when the list splits at its last
matching entry: that entry is replaced. -/
theorem putScrapeJob_doc_of_split (config : config) (doc : Document)
    (req : scrapeJobRequest) (outcome : ReloadOutcome) (l₁ l₂ : List Value) (v : Value)
    (hdoc : scrapeConfigsOf doc = some (l₁ ++ v :: l₂))
    (hv : jobNameMatches req.UniqueName v = true)
    (h₂ : ∀ w ∈ l₂, jobNameMatches req.UniqueName w = false) :
    (putScrapeJob config doc (Except.ok req) outcome).map Prod.fst =
      some (mapAssign doc (Key.str "scrape_configs")
        (Value.seq (l₁ ++ createScrapeConfig req :: l₂))) := by
  have hf := find_last_match req.UniqueName l₁ l₂ v hv h₂
  have hne : ((l₁.length : Int) ≠ -1) := by omega
  simp [putScrapeJob, hdoc, hf, hne, sliceAssign_at_split]

/-- The document after `PUT /scrapeJob` when no entry matches: the new entry
is appended. -/
theorem putScrapeJob_doc_of_no_match (config : config) (doc : Document)
    (req : scrapeJobRequest) (outcome : ReloadOutcome) (l : List Value)
    (hdoc : scrapeConfigsOf doc = some l)
    (h : ∀ w ∈ l, jobNameMatches req.UniqueName w = false) :
    (putScrapeJob config doc (Except.ok req) outcome).map Prod.fst =
      some (mapAssign doc (Key.str "scrape_configs")
        (Value.seq (l ++ [createScrapeConfig req]))) := by
  have hf := find_no_match req.UniqueName l h
  simp [putScrapeJob, hdoc, hf]

/-- The document after `DELETE /scrapeJob` when the list splits at its last
matching entry: that entry is removed. -/
theorem deleteScrapeJob_doc_of_split (config : config) (doc : Document)
    (name : String) (outcome : ReloadOutcome) (l₁ l₂ : List Value) (v : Value)
    (hdoc : scrapeConfigsOf doc = some (l₁ ++ v :: l₂))
    (hv : jobNameMatches name v = true)
    (h₂ : ∀ w ∈ l₂, jobNameMatches name w = false) :
    (deleteScrapeJob config doc name outcome).map Prod.fst =
      some (mapAssign doc (Key.str "scrape_configs") (Value.seq (l₁ ++ l₂))) := by
  have hf := find_last_match name l₁ l₂ v hv h₂
  have hne : ((l₁.length : Int) ≠ -1) := by omega
  have hd := deleteScrapeConfig_eq (l₁ ++ v :: l₂) doc l₁.length (by simp)
  rw [take_drop_at_split] at hd
  simp [deleteScrapeJob, hdoc, hf, hne, hd]

/-- The result of `DELETE /scrapeJob` when no entry matches. -/
theorem deleteScrapeJob_of_no_match (config : config) (doc : Document)
    (name : String) (outcome : ReloadOutcome) (l : List Value)
    (hdoc : scrapeConfigsOf doc = some l)
    (h : ∀ w ∈ l, jobNameMatches name w = false) :
    deleteScrapeJob config doc name outcome =
      some (doc,
        [Effect.log Level.info ("Delete scrape config " ++ name),
         Effect.log Level.info ("scrapeConfigIndex " ++ Itoa (-1)),
         Effect.log Level.info ("No such scrape config " ++ name),
         Effect.json 200 0 "Success"]) := by
  have hf := find_no_match name l h
  simp [deleteScrapeJob, hdoc, hf]

/-! ## Scrape-job upsert -/

/-- C1: when exactly one entry of the scrape-job list, the one at index `i`,
has the request's job name, `findScrapeConfigIndex` returns `i` and the
`PUT /scrapeJob` handler leaves a list of the same length whose entry at `i`
is `createScrapeConfig request` and whose other entries are the original
ones at the same positions. -/
theorem putScrapeJob_replaces_present (config : config) (doc : Document)
    (req : scrapeJobRequest) (outcome : ReloadOutcome) (l : List Value) (i : Nat) (v : Value)
    (hdoc : scrapeConfigsOf doc = some l)
    (hi : l[i]? = some v)
    (hv : jobNameMatches req.UniqueName v = true)
    (hother : ∀ j w, j ≠ i → l[j]? = some w → jobNameMatches req.UniqueName w = false) :
    findScrapeConfigIndex req.UniqueName l = (i : Int) ∧
    ∃ doc' effects l',
      putScrapeJob config doc (Except.ok req) outcome = some (doc', effects) ∧
      scrapeConfigsOf doc' = some l' ∧
      l'.length = l.length ∧
      l'[i]? = some (createScrapeConfig req) ∧
      ∀ j, j ≠ i → l'[j]? = l[j]? := by
  have hsplit := split_at_index l i v hi
  have hil : i < l.length := by
    rcases Nat.lt_or_ge i l.length with h | h
    · exact h
    · rw [List.getElem?_eq_none h] at hi
      exact absurd hi (by simp)
  have hlen : (l.take i).length = i := by
    rw [List.length_take]
    omega
  have h₂ : ∀ w ∈ l.drop (i + 1), jobNameMatches req.UniqueName w = false := by
    intro w hw
    obtain ⟨k, hk⟩ := List.getElem?_of_mem hw
    rw [List.getElem?_drop] at hk
    exact hother (i + 1 + k) w (by omega) hk
  have hfind : findScrapeConfigIndex req.UniqueName l = (i : Int) := by
    have h := find_last_match req.UniqueName (l.take i) (l.drop (i + 1)) v hv h₂
    rw [← hsplit, hlen] at h
    exact h
  refine ⟨hfind, ?_⟩
  have hdoc' : scrapeConfigsOf doc = some (l.take i ++ v :: l.drop (i + 1)) := by
    rw [← hsplit]
    exact hdoc
  have hput := putScrapeJob_doc_of_split config doc req outcome _ _ v hdoc' hv h₂
  cases hres : putScrapeJob config doc (Except.ok req) outcome with
  | none => simp [hres] at hput
  | some r =>
    obtain ⟨doc', effects⟩ := r
    simp only [hres, Option.map_some', Option.some.injEq] at hput
    have hset : l.take i ++ createScrapeConfig req :: l.drop (i + 1) =
        l.set i (createScrapeConfig req) := by
      have h := set_at_split (l.take i) (l.drop (i + 1)) v (createScrapeConfig req)
      rw [← hsplit, hlen] at h
      exact h.symm
    refine ⟨doc', effects, l.set i (createScrapeConfig req), rfl, ?_, ?_, ?_, ?_⟩
    · rw [hput, hset]
      exact scrapeConfigsOf_mapAssign doc _
    · simp
    · simp [hil]
    · intro j hj
      exact List.getElem?_set_ne (fun e => hj e.symm)

/-- C1, at a list of three entries with the request's job name in the middle. -/
theorem putScrapeJob_replaces_present_witness :
    findScrapeConfigIndex "b"
      [Value.smap [("job_name", Value.str "a")],
       Value.imap [(Key.str "job_name", Value.str "b")],
       Value.str "c"] = ((1 : Nat) : Int) ∧
    ∃ doc' effects l',
      putScrapeJob ⟨⟨"p.yml", "http://p"⟩, ⟨"b.yml", "http://b"⟩⟩
        [(Key.str "global", Value.null),
         (Key.str "scrape_configs", Value.seq
           [Value.smap [("job_name", Value.str "a")],
            Value.imap [(Key.str "job_name", Value.str "b")],
            Value.str "c"])]
        (Except.ok ⟨"b", ["http://x"], "http_2xx", "prod", "A1"⟩)
        (ReloadOutcome.response 200 (Except.ok "")) = some (doc', effects) ∧
      scrapeConfigsOf doc' = some l' ∧
      l'.length =
        [Value.smap [("job_name", Value.str "a")],
         Value.imap [(Key.str "job_name", Value.str "b")],
         Value.str "c"].length ∧
      l'[1]? = some (createScrapeConfig ⟨"b", ["http://x"], "http_2xx", "prod", "A1"⟩) ∧
      ∀ j, j ≠ 1 →
        l'[j]? =
          [Value.smap [("job_name", Value.str "a")],
           Value.imap [(Key.str "job_name", Value.str "b")],
           Value.str "c"][j]? :=
  putScrapeJob_replaces_present _ _ ⟨"b", ["http://x"], "http_2xx", "prod", "A1"⟩ _
    [Value.smap [("job_name", Value.str "a")],
     Value.imap [(Key.str "job_name", Value.str "b")],
     Value.str "c"] 1 (Value.imap [(Key.str "job_name", Value.str "b")])
    (by simp [scrapeConfigsOf, mapIndex, mapLookup])
    (by simp)
    (by simp [jobNameMatches, mapIndex, mapLookup, Value.eqString])
    (by
      intro j w hj hw
      match j, hj, hw with
      | 0, _, hw =>
        simp at hw
        subst hw
        simp [jobNameMatches, mapIndex, mapLookup, Value.eqString]
      | 2, _, hw =>
        simp at hw
        subst hw
        simp [jobNameMatches]
      | n + 3, _, hw => simp at hw)

/-- C2: when no entry of the scrape-job list has the request's job name, the
`PUT /scrapeJob` handler leaves the original list followed by exactly one new
entry, and that entry has the fixed derived shape: `job_name` the unique name,
`metrics_path` `/probe`, `params.module` the one prober, `static_configs` one
block with the request's targets and the labels `env` and `system_alert_id`,
and `relabel_configs` the three rules in their order. -/
theorem putScrapeJob_appends_absent (config : config) (doc : Document)
    (req : scrapeJobRequest) (outcome : ReloadOutcome) (l : List Value)
    (hdoc : scrapeConfigsOf doc = some l)
    (habsent : ∀ w ∈ l, jobNameMatches req.UniqueName w = false) :
    ∃ doc' effects entry,
      putScrapeJob config doc (Except.ok req) outcome = some (doc', effects) ∧
      scrapeConfigsOf doc' = some (l ++ [entry]) ∧
      entry = Value.smap
        [("job_name", Value.str req.UniqueName),
         ("metrics_path", Value.str "/probe"),
         ("params", Value.smap [("module", Value.strs [req.Prober])]),
         ("static_configs", Value.arr
           [Value.smap
             [("targets", Value.strs req.TargetUrls),
              ("labels", Value.smap
                [("env", Value.str req.Env),
                 ("system_alert_id", Value.str req.SystemAlertID)])]]),
         ("relabel_configs", Value.arr
           [Value.smap [("source_labels", Value.strs ["__address__"]),
                        ("target_label", Value.str "__param_target")],
            Value.smap [("source_labels", Value.strs ["__param_target"]),
                        ("target_label", Value.str "instance")],
            Value.smap [("target_label", Value.str "__address__"),
                        ("replacement", Value.str "127.0.0.1:9115")]])] := by
  have hput := putScrapeJob_doc_of_no_match config doc req outcome l hdoc habsent
  cases hres : putScrapeJob config doc (Except.ok req) outcome with
  | none => simp [hres] at hput
  | some r =>
    obtain ⟨doc', effects⟩ := r
    simp only [hres, Option.map_some', Option.some.injEq] at hput
    refine ⟨doc', effects, createScrapeConfig req, rfl, ?_, ?_⟩
    · rw [hput]
      exact scrapeConfigsOf_mapAssign doc _
    · simp [createScrapeConfig, mapAssign]

/-- C2, at the `svc-a` request against an empty scrape-job list. -/
theorem putScrapeJob_appends_absent_witness :
    ∃ doc' effects entry,
      putScrapeJob ⟨⟨"p.yml", "http://p"⟩, ⟨"b.yml", "http://b"⟩⟩
        [(Key.str "scrape_configs", Value.seq [])]
        (Except.ok ⟨"svc-a", ["http://a"], "http_2xx", "prod", "A1"⟩)
        (ReloadOutcome.response 200 (Except.ok "")) = some (doc', effects) ∧
      scrapeConfigsOf doc' = some ([] ++ [entry]) ∧
      entry = Value.smap
        [("job_name", Value.str "svc-a"),
         ("metrics_path", Value.str "/probe"),
         ("params", Value.smap [("module", Value.strs ["http_2xx"])]),
         ("static_configs", Value.arr
           [Value.smap
             [("targets", Value.strs ["http://a"]),
              ("labels", Value.smap
                [("env", Value.str "prod"),
                 ("system_alert_id", Value.str "A1")])]]),
         ("relabel_configs", Value.arr
           [Value.smap [("source_labels", Value.strs ["__address__"]),
                        ("target_label", Value.str "__param_target")],
            Value.smap [("source_labels", Value.strs ["__param_target"]),
                        ("target_label", Value.str "instance")],
            Value.smap [("target_label", Value.str "__address__"),
                        ("replacement", Value.str "127.0.0.1:9115")]])] :=
  putScrapeJob_appends_absent _ _ ⟨"svc-a", ["http://a"], "http_2xx", "prod", "A1"⟩ _ []
    (by simp [scrapeConfigsOf, mapIndex, mapLookup])
    (by simp)

/-! ## Scrape-job delete -/

/-- C3: for a scrape-job list of length `n ≥ 1` and an index `i < n`,
`deleteScrapeConfig` stores under the document's `scrape_configs` key the list
of length `n - 1` made of the entries before `i` followed by the entries after
`i`; the last-element, first-element and interior branches all do so. -/
theorem deleteScrapeConfig_removes_index (l : List Value) (doc : Document) (i : Nat)
    (hi : i < l.length) :
    ∃ doc',
      deleteScrapeConfig l doc (i : Int) = some doc' ∧
      scrapeConfigsOf doc' = some (l.take i ++ l.drop (i + 1)) ∧
      (l.take i ++ l.drop (i + 1)).length = l.length - 1 ∧
      l.take i ++ l.drop (i + 1) = l.eraseIdx i ∧
      ∀ k, k ≠ Key.str "scrape_configs" → mapLookup doc' k = mapLookup doc k := by
  refine ⟨_, deleteScrapeConfig_eq l doc i hi, scrapeConfigsOf_mapAssign doc _, ?_, ?_, ?_⟩
  · simp only [List.length_append, List.length_take, List.length_drop]
    omega
  · rw [List.eraseIdx_eq_take_drop_succ]
  · intro k hk
    exact mapLookup_mapAssign_other doc _ k _ hk

/-- C3, at the only entry of a one-element list. -/
theorem deleteScrapeConfig_removes_index_witness :
    ∃ doc',
      deleteScrapeConfig [Value.smap [("job_name", Value.str "a")]]
        [(Key.str "scrape_configs", Value.seq [Value.smap [("job_name", Value.str "a")]])]
        ((0 : Nat) : Int) = some doc' ∧
      scrapeConfigsOf doc' =
        some ([Value.smap [("job_name", Value.str "a")]].take 0 ++
          [Value.smap [("job_name", Value.str "a")]].drop (0 + 1)) ∧
      ([Value.smap [("job_name", Value.str "a")]].take 0 ++
          [Value.smap [("job_name", Value.str "a")]].drop (0 + 1)).length =
        [Value.smap [("job_name", Value.str "a")]].length - 1 ∧
      [Value.smap [("job_name", Value.str "a")]].take 0 ++
          [Value.smap [("job_name", Value.str "a")]].drop (0 + 1) =
        [Value.smap [("job_name", Value.str "a")]].eraseIdx 0 ∧
      ∀ k, k ≠ Key.str "scrape_configs" →
        mapLookup doc' k =
          mapLookup
            [(Key.str "scrape_configs",
              Value.seq [Value.smap [("job_name", Value.str "a")]])] k :=
  deleteScrapeConfig_removes_index [Value.smap [("job_name", Value.str "a")]] _ 0 (by simp)

/-- C4: when no entry of the scrape-job list has the given name,
`findScrapeConfigIndex` returns -1 and the `DELETE /scrapeJob` handler leaves
the whole document unchanged and writes exactly one response, the success
response: status 200, code 0, message `Success`. -/
theorem deleteScrapeJob_absent_unchanged (config : config) (doc : Document)
    (name : String) (outcome : ReloadOutcome) (l : List Value)
    (hdoc : scrapeConfigsOf doc = some l)
    (habsent : ∀ w ∈ l, jobNameMatches name w = false) :
    findScrapeConfigIndex name l = -1 ∧
    ∃ effects,
      deleteScrapeJob config doc name outcome = some (doc, effects) ∧
      responses effects = [(200, 0, "Success")] := by
  refine ⟨find_no_match name l habsent, _,
    deleteScrapeJob_of_no_match config doc name outcome l hdoc habsent, ?_⟩
  simp [responses]

/-- C4, at the name `missing` on a list holding one other job. -/
theorem deleteScrapeJob_absent_unchanged_witness :
    findScrapeConfigIndex "missing" [Value.smap [("job_name", Value.str "a")]] = -1 ∧
    ∃ effects,
      deleteScrapeJob ⟨⟨"p.yml", "http://p"⟩, ⟨"b.yml", "http://b"⟩⟩
        [(Key.str "scrape_configs", Value.seq [Value.smap [("job_name", Value.str "a")]])]
        "missing" (ReloadOutcome.transportError "refused") =
        some ([(Key.str "scrape_configs",
                Value.seq [Value.smap [("job_name", Value.str "a")]])], effects) ∧
      responses effects = [(200, 0, "Success")] :=
  deleteScrapeJob_absent_unchanged _ _ "missing" _ [Value.smap [("job_name", Value.str "a")]]
    (by simp [scrapeConfigsOf, mapIndex, mapLookup])
    (by simp [jobNameMatches, mapIndex, mapLookup, Value.eqString])

/-! ## Idempotence and the uniqueness of job names -/

theorem exists_of_map_fst {α β : Type} (o : Option (α × β)) (a : α)
    (h : o.map Prod.fst = some a) : ∃ b, o = some (a, b) := by
  cases o with
  | none => simp at h
  | some r =>
    obtain ⟨x, y⟩ := r
    simp at h
    exact ⟨y, by rw [h]⟩

theorem filterMap_jobNameOf_split (l₁ l₂ : List Value) (v : Value) (name : String)
    (hv : jobNameOf v = some name) :
    (l₁ ++ v :: l₂).filterMap jobNameOf =
      l₁.filterMap jobNameOf ++ name :: l₂.filterMap jobNameOf := by
  simp [List.filterMap_append, List.filterMap_cons, hv]

theorem not_mem_filterMap_of_no_match (name : String) (l : List Value)
    (h : ∀ w ∈ l, jobNameMatches name w = false) : name ∉ l.filterMap jobNameOf := by
  intro hmem
  obtain ⟨w, hw, hname⟩ := List.mem_filterMap.mp hmem
  have := (jobNameMatches_iff name w).mpr hname
  rw [h w hw] at this
  exact Bool.false_ne_true this

/-- C5: the scrape-job upsert is idempotent: after one `PUT /scrapeJob` a
second one with the same request leaves the document, and so the list, as the
first one left it; against an empty list the list has length 1 after both. -/
theorem putScrapeJob_idempotent (config : config) (doc : Document)
    (req : scrapeJobRequest) (o₁ o₂ : ReloadOutcome) (l : List Value)
    (hdoc : scrapeConfigsOf doc = some l) :
    ∃ doc₁ e₁ e₂ l₁,
      putScrapeJob config doc (Except.ok req) o₁ = some (doc₁, e₁) ∧
      putScrapeJob config doc₁ (Except.ok req) o₂ = some (doc₁, e₂) ∧
      scrapeConfigsOf doc₁ = some l₁ ∧
      (l = [] → l₁.length = 1) := by
  have he := jobNameMatches_createScrapeConfig req
  rcases split_at_last_match req.UniqueName l with hno | ⟨l₁, v, l₂, hl, hv, h₂⟩
  · have h1 := putScrapeJob_doc_of_no_match config doc req o₁ l hdoc hno
    obtain ⟨e₁, h1⟩ := exists_of_map_fst _ _ h1
    have hdoc₁ : scrapeConfigsOf (mapAssign doc (Key.str "scrape_configs")
        (Value.seq (l ++ [createScrapeConfig req]))) =
        some (l ++ createScrapeConfig req :: []) := scrapeConfigsOf_mapAssign doc _
    have h2 := putScrapeJob_doc_of_split config _ req o₂ l [] _ hdoc₁ he (by simp)
    rw [mapAssign_mapAssign_same] at h2
    obtain ⟨e₂, h2⟩ := exists_of_map_fst _ _ h2
    exact ⟨_, e₁, e₂, _, h1, h2, scrapeConfigsOf_mapAssign doc _, fun _ => by simp [*]⟩
  · subst hl
    have h1 := putScrapeJob_doc_of_split config doc req o₁ l₁ l₂ v hdoc hv h₂
    obtain ⟨e₁, h1⟩ := exists_of_map_fst _ _ h1
    have hdoc₁ : scrapeConfigsOf (mapAssign doc (Key.str "scrape_configs")
        (Value.seq (l₁ ++ createScrapeConfig req :: l₂))) =
        some (l₁ ++ createScrapeConfig req :: l₂) := scrapeConfigsOf_mapAssign doc _
    have h2 := putScrapeJob_doc_of_split config _ req o₂ l₁ l₂ _ hdoc₁ he h₂
    rw [mapAssign_mapAssign_same] at h2
    obtain ⟨e₂, h2⟩ := exists_of_map_fst _ _ h2
    exact ⟨_, e₁, e₂, _, h1, h2, scrapeConfigsOf_mapAssign doc _, fun h => by simp at h⟩

/-- C5, at the `svc-a` request issued twice against an empty list. -/
theorem putScrapeJob_idempotent_witness :
    ∃ doc₁ e₁ e₂ l₁,
      putScrapeJob ⟨⟨"p.yml", "http://p"⟩, ⟨"b.yml", "http://b"⟩⟩
        [(Key.str "scrape_configs", Value.seq [])]
        (Except.ok ⟨"svc-a", ["http://a"], "http_2xx", "prod", "A1"⟩)
        (ReloadOutcome.response 200 (Except.ok "")) = some (doc₁, e₁) ∧
      putScrapeJob ⟨⟨"p.yml", "http://p"⟩, ⟨"b.yml", "http://b"⟩⟩ doc₁
        (Except.ok ⟨"svc-a", ["http://a"], "http_2xx", "prod", "A1"⟩)
        (ReloadOutcome.transportError "refused") = some (doc₁, e₂) ∧
      scrapeConfigsOf doc₁ = some l₁ ∧
      (([] : List Value) = [] → l₁.length = 1) :=
  putScrapeJob_idempotent _ _ ⟨"svc-a", ["http://a"], "http_2xx", "prod", "A1"⟩ _ _ []
    (by simp [scrapeConfigsOf, mapIndex, mapLookup])

/-- C9: if no two entries of the scrape-job list have the same job name, then
no two entries have the same job name after a `PUT /scrapeJob` (replace at
the found index, or append), after a `DELETE /scrapeJob`, and after
`deleteScrapeConfig` at an index returned by `findScrapeConfigIndex`. -/
theorem uniqueJobNames_preserved (config : config) (doc : Document) (l : List Value)
    (req : scrapeJobRequest) (name : String) (outcome : ReloadOutcome)
    (hdoc : scrapeConfigsOf doc = some l) (huniq : UniqueJobNames l) :
    (∃ doc' effects l',
      putScrapeJob config doc (Except.ok req) outcome = some (doc', effects) ∧
      scrapeConfigsOf doc' = some l' ∧ UniqueJobNames l') ∧
    (∃ doc' effects l',
      deleteScrapeJob config doc name outcome = some (doc', effects) ∧
      scrapeConfigsOf doc' = some l' ∧ UniqueJobNames l') ∧
    (findScrapeConfigIndex name l ≠ -1 → ∃ doc' l',
      deleteScrapeConfig l doc (findScrapeConfigIndex name l) = some doc' ∧
      scrapeConfigsOf doc' = some l' ∧ UniqueJobNames l') := by
  have hdel : ∀ (l₁ l₂ : List Value) (v : Value), l = l₁ ++ v :: l₂ →
      UniqueJobNames (l₁ ++ l₂) := by
    intro l₁ l₂ v hl
    subst hl
    have hsub : (l₁ ++ l₂).Sublist (l₁ ++ v :: l₂) :=
      List.Sublist.append (List.Sublist.refl l₁) (List.sublist_cons_self v l₂)
    exact List.Nodup.sublist (hsub.filterMap jobNameOf) huniq
  refine ⟨?_, ?_, ?_⟩
  · rcases split_at_last_match req.UniqueName l with hno | ⟨l₁, v, l₂, hl, hv, h₂⟩
    · have h1 := putScrapeJob_doc_of_no_match config doc req outcome l hdoc hno
      obtain ⟨e₁, h1⟩ := exists_of_map_fst _ _ h1
      refine ⟨_, e₁, _, h1, scrapeConfigsOf_mapAssign doc _, ?_⟩
      unfold UniqueJobNames
      rw [List.filterMap_append]
      simp only [List.filterMap_cons, jobNameOf_createScrapeConfig, List.filterMap_nil]
      rw [List.nodup_append]
      refine ⟨huniq, List.nodup_singleton _, ?_⟩
      intro a ha hb
      rw [List.mem_singleton] at hb
      subst hb
      exact not_mem_filterMap_of_no_match _ l hno ha
    · subst hl
      have h1 := putScrapeJob_doc_of_split config doc req outcome l₁ l₂ v hdoc hv h₂
      obtain ⟨e₁, h1⟩ := exists_of_map_fst _ _ h1
      refine ⟨_, e₁, _, h1, scrapeConfigsOf_mapAssign doc _, ?_⟩
      unfold UniqueJobNames at huniq ⊢
      rw [filterMap_jobNameOf_split _ _ _ _ (jobNameOf_createScrapeConfig req)]
      rw [filterMap_jobNameOf_split _ _ _ _ ((jobNameMatches_iff _ _).mp hv)] at huniq
      exact huniq
  · rcases split_at_last_match name l with hno | ⟨l₁, v, l₂, hl, hv, h₂⟩
    · exact ⟨doc, _, l, deleteScrapeJob_of_no_match config doc name outcome l hdoc hno,
        hdoc, huniq⟩
    · have hu := hdel l₁ l₂ v hl
      subst hl
      have h1 := deleteScrapeJob_doc_of_split config doc name outcome l₁ l₂ v hdoc hv h₂
      obtain ⟨e₁, h1⟩ := exists_of_map_fst _ _ h1
      exact ⟨_, e₁, _, h1, scrapeConfigsOf_mapAssign doc _, hu⟩
  · intro hfound
    rcases split_at_last_match name l with hno | ⟨l₁, v, l₂, hl, hv, h₂⟩
    · exact absurd (find_no_match name l hno) hfound
    · have hu := hdel l₁ l₂ v hl
      subst hl
      rw [find_last_match name l₁ l₂ v hv h₂]
      have hd := deleteScrapeConfig_eq (l₁ ++ v :: l₂) doc l₁.length (by simp)
      rw [take_drop_at_split] at hd
      exact ⟨_, _, hd, scrapeConfigsOf_mapAssign doc _, hu⟩

/-- C9, at a document whose list holds the jobs `a` and `b`: an upsert of `b`
and a delete of `a`. -/
theorem uniqueJobNames_preserved_witness :
    UniqueJobNames
      [Value.smap [("job_name", Value.str "a")],
       Value.imap [(Key.str "job_name", Value.str "b")]] ∧
    (∃ doc' effects l',
      putScrapeJob ⟨⟨"p.yml", "http://p"⟩, ⟨"b.yml", "http://b"⟩⟩
        [(Key.str "scrape_configs", Value.seq
          [Value.smap [("job_name", Value.str "a")],
           Value.imap [(Key.str "job_name", Value.str "b")]])]
        (Except.ok ⟨"b", ["http://x"], "http_2xx", "prod", "A1"⟩)
        (ReloadOutcome.response 200 (Except.ok "")) = some (doc', effects) ∧
      scrapeConfigsOf doc' = some l' ∧ UniqueJobNames l') ∧
    (∃ doc' effects l',
      deleteScrapeJob ⟨⟨"p.yml", "http://p"⟩, ⟨"b.yml", "http://b"⟩⟩
        [(Key.str "scrape_configs", Value.seq
          [Value.smap [("job_name", Value.str "a")],
           Value.imap [(Key.str "job_name", Value.str "b")]])]
        "a" (ReloadOutcome.response 200 (Except.ok "")) = some (doc', effects) ∧
      scrapeConfigsOf doc' = some l' ∧ UniqueJobNames l') ∧
    (findScrapeConfigIndex "a"
        [Value.smap [("job_name", Value.str "a")],
         Value.imap [(Key.str "job_name", Value.str "b")]] ≠ -1 → ∃ doc' l',
      deleteScrapeConfig
        [Value.smap [("job_name", Value.str "a")],
         Value.imap [(Key.str "job_name", Value.str "b")]]
        [(Key.str "scrape_configs", Value.seq
          [Value.smap [("job_name", Value.str "a")],
           Value.imap [(Key.str "job_name", Value.str "b")]])]
        (findScrapeConfigIndex "a"
          [Value.smap [("job_name", Value.str "a")],
           Value.imap [(Key.str "job_name", Value.str "b")]]) = some doc' ∧
      scrapeConfigsOf doc' = some l' ∧ UniqueJobNames l') :=
  ⟨by simp [UniqueJobNames, jobNameOf, mapIndex, mapLookup],
   uniqueJobNames_preserved _ _
    [Value.smap [("job_name", Value.str "a")],
     Value.imap [(Key.str "job_name", Value.str "b")]]
    ⟨"b", ["http://x"], "http_2xx", "prod", "A1"⟩ "a" _
    (by simp [scrapeConfigsOf, mapIndex, mapLookup])
    (by simp [UniqueJobNames, jobNameOf, mapIndex, mapLookup])⟩

/-! ## Probe module synthesis -/

/-- C6: `createProber` returns a module with `prober` set to `http` and an
`http` block that always holds `method` (the request's) and `tls_config`
(`insecure_skip_verify: true`), holds `headers` exactly when the request has
a header, `body` exactly when the request body is not empty, `basic_auth`
(the request's username and password) exactly when both are not empty, and
holds no other key. -/
theorem createProber_shape (r : proberRequest) :
    ∃ http : List (String × Value),
      createProber r = Value.smap [("prober", Value.str "http"), ("http", Value.smap http)] ∧
      (http.map Prod.fst).Nodup ∧
      mapLookup http "method" = some (Value.str r.Method) ∧
      mapLookup http "tls_config" =
        some (Value.smap [("insecure_skip_verify", Value.bool true)]) ∧
      mapLookup http "headers" =
        (if r.Headers = [] then none else some (Value.strMap r.Headers)) ∧
      mapLookup http "body" = (if r.Body = "" then none else some (Value.str r.Body)) ∧
      mapLookup http "basic_auth" =
        (if r.BasicAuth.Username ≠ "" ∧ r.BasicAuth.Password ≠ "" then
          some (Value.smap [("username", Value.str r.BasicAuth.Username),
                            ("password", Value.str r.BasicAuth.Password)])
        else none) ∧
      ∀ k, k ≠ "method" → k ≠ "headers" → k ≠ "body" → k ≠ "basic_auth" →
        k ≠ "tls_config" → mapLookup http k = none := by
  refine ⟨_, rfl, ?_⟩
  by_cases hh : r.Headers = [] <;> by_cases hb : r.Body = "" <;>
    by_cases hu : r.BasicAuth.Username = "" <;> by_cases hp : r.BasicAuth.Password = "" <;>
    simp [mapAssign, mapLookup, hh, hb, hu, hp] <;>
    intro k h1 h2 h3 h4 h5 <;>
    simp [Ne.symm h1, Ne.symm h2, Ne.symm h3, Ne.symm h4, Ne.symm h5]

/-! ## The reload notifiers -/

/-- C7: each reload notifier writes exactly one response for every outcome of
the reload request: the success response (200, code 0, `Success`) when the
endpoint was reached and answered with status 200, and the generic server
error (500, code -999, `System error`) on a transport error and on every
other status, whether or not the body can be read. -/
theorem reload_writes_one_response (config : config) (outcome : ReloadOutcome) :
    responses (reloadBlackboxConfig config outcome).1 =
      [if outcome.succeeded then (200, 0, "Success") else (500, -999, "System error")] ∧
    responses (reloadPrometheusConfig config outcome).1 =
      [if outcome.succeeded then (200, 0, "Success") else (500, -999, "System error")] := by
  cases outcome with
  | transportError err =>
    simp [reloadBlackboxConfig, reloadPrometheusConfig, responses, ReloadOutcome.succeeded]
  | response StatusCode body =>
    by_cases h : StatusCode = 200
    · simp [reloadBlackboxConfig, reloadPrometheusConfig, responses,
        ReloadOutcome.succeeded, h]
    · cases body <;>
        simp [reloadBlackboxConfig, reloadPrometheusConfig, responses,
          ReloadOutcome.succeeded, h]

/-- C8: the two reload notifiers do not return the same signal.  On a reload
that succeeded `reloadBlackboxConfig` returns nil and `reloadPrometheusConfig`
returns an error; on a failure status with an unreadable body
`reloadBlackboxConfig` returns an error and `reloadPrometheusConfig` returns
nil; and `PUT /scrapeJob` logs `Cannot reload prometheus config` at error
level after a reload that succeeded. -/
theorem reload_signals_differ (config : config) :
    (reloadBlackboxConfig config (ReloadOutcome.response 200 (Except.ok ""))).2 = none ∧
    (reloadPrometheusConfig config (ReloadOutcome.response 200 (Except.ok ""))).2 =
      some "Successful to trigger reloading of prometheus config" ∧
    (reloadBlackboxConfig config (ReloadOutcome.response 503 (Except.error "EOF"))).2 =
      some "Failed to read reloadResBody EOF" ∧
    (reloadPrometheusConfig config (ReloadOutcome.response 503 (Except.error "EOF"))).2 =
      none ∧
    (putScrapeJob config [(Key.str "scrape_configs", Value.seq [])]
        (Except.ok ⟨"svc-a", ["http://a"], "http_2xx", "prod", "A1"⟩)
        (ReloadOutcome.response 200 (Except.ok ""))).map (fun r => errorLogs r.2) =
      some ["Cannot reload prometheus config"] := by
  refine ⟨rfl, rfl, ?_, rfl, ?_⟩
  · simp [reloadBlackboxConfig]
  · simp [putScrapeJob, scrapeConfigsOf, mapIndex, mapLookup, findScrapeConfigIndex,
      findScrapeConfigIndexLoop, reloadPrometheusConfig, savePrometheusConfig,
      logPrometheusReload, errorLogs]

/-! ## Delete of an absent entry -/

/-- C10 as stated fails for `DELETE /prober`: with no module named `missing`
in the map, the handler still runs the Persistence Writer and the Reload
Notifier, and on a transport error it answers with the server error. -/
theorem deleteProber_absent_saves_and_reloads :
    mapLookup (BlackboxState.mk [(Key.str "modules", Value.smap [])] []).blackboxConfigModules
        "missing" = none ∧
    ¬ (saveCount (deleteProber ⟨⟨"p.yml", "http://p"⟩, ⟨"b.yml", "http://b"⟩⟩
          ⟨[(Key.str "modules", Value.smap [])], []⟩ "missing"
          (ReloadOutcome.transportError "refused")).2 = 0 ∧
       reloadCount (deleteProber ⟨⟨"p.yml", "http://p"⟩, ⟨"b.yml", "http://b"⟩⟩
          ⟨[(Key.str "modules", Value.smap [])], []⟩ "missing"
          (ReloadOutcome.transportError "refused")).2 = 0) ∧
    responses (deleteProber ⟨⟨"p.yml", "http://p"⟩, ⟨"b.yml", "http://b"⟩⟩
          ⟨[(Key.str "modules", Value.smap [])], []⟩ "missing"
          (ReloadOutcome.transportError "refused")).2 = [(500, -999, "System error")] := by
  refine ⟨rfl, ?_, ?_⟩ <;>
    simp [deleteProber, saveBlackboxConfig, reloadBlackboxConfig, logBlackboxReload,
      saveCount, reloadCount, responses]

/-- C10, amended: when the named job is absent, `DELETE /scrapeJob` leaves the
document unchanged and answers success without running the Persistence Writer
or the Reload Notifier; when the named module is absent, `DELETE /prober`
leaves the module map unchanged, runs the Persistence Writer once and the
Reload Notifier once, and answers with the reload's result. -/
theorem delete_absent_effects (config : config) (outcome : ReloadOutcome) (name : String)
    (doc : Document) (l : List Value) (st : BlackboxState)
    (hdoc : scrapeConfigsOf doc = some l)
    (habsent : ∀ w ∈ l, jobNameMatches name w = false)
    (hmodule : mapLookup st.blackboxConfigModules name = none) :
    (∃ effects,
      deleteScrapeJob config doc name outcome = some (doc, effects) ∧
      saveCount effects = 0 ∧ reloadCount effects = 0 ∧
      responses effects = [(200, 0, "Success")]) ∧
    (deleteProber config st name outcome).1 = st ∧
    saveCount (deleteProber config st name outcome).2 = 1 ∧
    reloadCount (deleteProber config st name outcome).2 = 1 ∧
    responses (deleteProber config st name outcome).2 =
      [if outcome.succeeded then (200, 0, "Success") else (500, -999, "System error")] := by
  refine ⟨⟨_, deleteScrapeJob_of_no_match config doc name outcome l hdoc habsent, ?_, ?_, ?_⟩,
    ?_, ?_, ?_, ?_⟩
  · simp [saveCount]
  · simp [reloadCount]
  · simp [responses]
  · simp [deleteProber, mapDelete_of_mapLookup_none _ _ hmodule]
  · cases outcome with
    | transportError err =>
      simp [deleteProber, saveBlackboxConfig, reloadBlackboxConfig, logBlackboxReload,
        saveCount]
    | response StatusCode body =>
      by_cases h : StatusCode = 200
      · simp [deleteProber, saveBlackboxConfig, reloadBlackboxConfig, logBlackboxReload,
          saveCount, h]
      · cases body <;>
          simp [deleteProber, saveBlackboxConfig, reloadBlackboxConfig, logBlackboxReload,
            saveCount, h]
  · cases outcome with
    | transportError err =>
      simp [deleteProber, saveBlackboxConfig, reloadBlackboxConfig, logBlackboxReload,
        reloadCount]
    | response StatusCode body =>
      by_cases h : StatusCode = 200
      · simp [deleteProber, saveBlackboxConfig, reloadBlackboxConfig, logBlackboxReload,
          reloadCount, h]
      · cases body <;>
          simp [deleteProber, saveBlackboxConfig, reloadBlackboxConfig, logBlackboxReload,
            reloadCount, h]
  · cases outcome with
    | transportError err =>
      simp [deleteProber, saveBlackboxConfig, reloadBlackboxConfig, logBlackboxReload,
        responses, ReloadOutcome.succeeded]
    | response StatusCode body =>
      by_cases h : StatusCode = 200
      · simp [deleteProber, saveBlackboxConfig, reloadBlackboxConfig, logBlackboxReload,
          responses, ReloadOutcome.succeeded, h]
      · cases body <;>
          simp [deleteProber, saveBlackboxConfig, reloadBlackboxConfig, logBlackboxReload,
            responses, ReloadOutcome.succeeded, h]

/-- C10 amended, at the name `missing` with one other job and one other module. -/
theorem delete_absent_effects_witness :
    (∃ effects,
      deleteScrapeJob ⟨⟨"p.yml", "http://p"⟩, ⟨"b.yml", "http://b"⟩⟩
        [(Key.str "scrape_configs", Value.seq [Value.smap [("job_name", Value.str "a")]])]
        "missing" (ReloadOutcome.response 200 (Except.ok "")) =
        some ([(Key.str "scrape_configs",
                Value.seq [Value.smap [("job_name", Value.str "a")]])], effects) ∧
      saveCount effects = 0 ∧ reloadCount effects = 0 ∧
      responses effects = [(200, 0, "Success")]) ∧
    (deleteProber ⟨⟨"p.yml", "http://p"⟩, ⟨"b.yml", "http://b"⟩⟩
      ⟨[(Key.str "modules", Value.smap [("m", Value.null)])], [("m", Value.null)]⟩
      "missing" (ReloadOutcome.response 200 (Except.ok ""))).1 =
      ⟨[(Key.str "modules", Value.smap [("m", Value.null)])], [("m", Value.null)]⟩ ∧
    saveCount (deleteProber ⟨⟨"p.yml", "http://p"⟩, ⟨"b.yml", "http://b"⟩⟩
      ⟨[(Key.str "modules", Value.smap [("m", Value.null)])], [("m", Value.null)]⟩
      "missing" (ReloadOutcome.response 200 (Except.ok ""))).2 = 1 ∧
    reloadCount (deleteProber ⟨⟨"p.yml", "http://p"⟩, ⟨"b.yml", "http://b"⟩⟩
      ⟨[(Key.str "modules", Value.smap [("m", Value.null)])], [("m", Value.null)]⟩
      "missing" (ReloadOutcome.response 200 (Except.ok ""))).2 = 1 ∧
    responses (deleteProber ⟨⟨"p.yml", "http://p"⟩, ⟨"b.yml", "http://b"⟩⟩
      ⟨[(Key.str "modules", Value.smap [("m", Value.null)])], [("m", Value.null)]⟩
      "missing" (ReloadOutcome.response 200 (Except.ok ""))).2 =
      [if (ReloadOutcome.response 200 (Except.ok "")).succeeded then (200, 0, "Success")
       else (500, -999, "System error")] :=
  delete_absent_effects _ _ "missing" _ [Value.smap [("job_name", Value.str "a")]]
    ⟨[(Key.str "modules", Value.smap [("m", Value.null)])], [("m", Value.null)]⟩
    (by simp [scrapeConfigsOf, mapIndex, mapLookup])
    (by simp [jobNameMatches, mapIndex, mapLookup, Value.eqString])
    (by simp [mapLookup])

end MonitorAgent
